import Mathlib

/-!
Verification of the time-unit conversion engine of Pyleoclim
(`example_notebooks/time_representation.ipynb` and its spec).

The repository snapshot ships only the demonstration notebook; the
implementation of `convert_time_unit` (in `pyleoclim.Series` /
`pyleoclim.MultipleSeries`) is not among the shipped sources.  All
definitions below are therefore modelled from the specification's
component design (sections 3, 4.1, 4.2, 4.3), anchored by the concrete
inputs/outputs printed in the notebook.  Real numbers are embedded as
rationals: the spec states the conversion is purely linear and exact
under real arithmetic.
-/

/-- Modelled from the spec: direction of a time convention — whether
increasing label values move forward (PROGRADE) or backward (RETROGRADE)
in absolute astronomical time. -/
inductive Direction where
  | PROGRADE
  | RETROGRADE
deriving DecidableEq, Repr

/-- Sign contributed by a direction: PROGRADE = +1, RETROGRADE = -1. -/
def Direction.sign : Direction → ℚ
  | .PROGRADE => 1
  | .RETROGRADE => -1

/-- Modelled from the spec: a fully resolved time convention
`(scale_exponent, direction, datum_offset)`; `scale_exponent` is the
power of ten relating the label's base unit to years, `datum_offset`
the offset (in years) of the label's zero-point from astronomical
year 0. -/
structure UnitDescriptor where
  scale_exponent : ℕ
  direction : Direction
  datum_offset : ℚ
deriving DecidableEq, Repr

/-- The "year CE" convention: prograde years counted from year 0. -/
def yearDescriptor : UnitDescriptor := ⟨0, .PROGRADE, 0⟩

/-- The "yr BP" convention: retrograde years counted from CE 1950. -/
def yrBPDescriptor : UnitDescriptor := ⟨0, .RETROGRADE, 1950⟩

/-- The "ky BP" convention: retrograde kiloyears counted from CE 1950. -/
def kyBPDescriptor : UnitDescriptor := ⟨3, .RETROGRADE, 1950⟩

/-- The "my BP" convention: retrograde megayears counted from CE 1950. -/
def myBPDescriptor : UnitDescriptor := ⟨6, .RETROGRADE, 1950⟩

/-- Modelled from the spec: the fixed process-wide table of recognized
label families (section 4.1), keyed by the whitespace/case-normalized
label. -/
def unitTable : List (String × UnitDescriptor) :=
  [ ("year", yearDescriptor), ("years", yearDescriptor),
    ("yr", yearDescriptor), ("yrs", yearDescriptor),
    ("y bp", yrBPDescriptor), ("yr bp", yrBPDescriptor),
    ("yrs bp", yrBPDescriptor), ("year bp", yrBPDescriptor),
    ("years bp", yrBPDescriptor),
    ("ky bp", kyBPDescriptor), ("kyr bp", kyBPDescriptor),
    ("kyrs bp", kyBPDescriptor), ("ka bp", kyBPDescriptor),
    ("ka", kyBPDescriptor),
    ("my bp", myBPDescriptor), ("myr bp", myBPDescriptor),
    ("myrs bp", myBPDescriptor), ("ma bp", myBPDescriptor),
    ("ma", myBPDescriptor) ]

/-- Splits a character list into its whitespace-separated words. -/
def splitWords : List Char → List Char → List (List Char)
  | [], acc => if acc.isEmpty then [] else [acc.reverse]
  | c :: rest, acc =>
      if c.isWhitespace then
        if acc.isEmpty then splitWords rest []
        else acc.reverse :: splitWords rest []
      else splitWords rest (c :: acc)

/-- Modelled from the spec: case- and whitespace-tolerant normalization —
lower-case the label, then collapse runs of whitespace to single spaces
and trim the ends. -/
def normalizeLabel (label : String) : String :=
  String.mk
    (List.intercalate [' '] (splitWords (label.data.map Char.toLower) []))

/-- Modelled from the spec: `resolve(label) -> UnitDescriptor`, a pure
lookup in the fixed table; `none` plays the role of raising
`UnrecognizedUnitError` (the offending label is the argument itself). -/
def resolve (label : String) : Option UnitDescriptor :=
  unitTable.lookup (normalizeLabel label)

/-- Modelled from the spec (section 4.2, steps 1-2): express a value in
the common intermediate frame, absolute astronomical year. -/
def toAbsoluteYear (d : UnitDescriptor) (v : ℚ) : ℚ :=
  d.datum_offset + d.direction.sign * v * 10 ^ d.scale_exponent

/-- Modelled from the spec (section 4.2, step 2): re-project an absolute
astronomical year into a target convention. -/
def fromAbsoluteYear (d : UnitDescriptor) (y : ℚ) : ℚ :=
  d.direction.sign * (y - d.datum_offset) / 10 ^ d.scale_exponent

/-- The element-wise conversion: through the intermediate frame. -/
def convertValue (dfrom dto : UnitDescriptor) (v : ℚ) : ℚ :=
  fromAbsoluteYear dto (toAbsoluteYear dfrom v)

/-- First-order difference of a sequence (section 4.2, step 3). -/
def firstDiff : List ℚ → List ℚ
  | a :: b :: rest => (b - a) :: firstDiff (b :: rest)
  | _ => []

/-- Modelled from the spec (section 4.2, step 3): the transformed
sequence is predominantly decreasing when its first-order differences
sum to a negative number (their mean is negative).  The notebook runs
fix this reading: a `year`-labeled ascending axis converted to any BP
convention is reported as "adjusted to be ascending". -/
def predominantlyDecreasing (l : List ℚ) : Prop :=
  (firstDiff l).sum < 0

instance (l : List ℚ) : Decidable (predominantlyDecreasing l) :=
  inferInstanceAs (Decidable ((firstDiff l).sum < 0))

/-- Modelled from the spec (section 4.2): the axis converter.  Same
descriptor returns the input unchanged with `reordered = false`;
otherwise every element is converted through the intermediate frame and
the result is reversed (with `reordered = true`) exactly when the
transform left it predominantly decreasing. -/
def convert (axis : List ℚ) (dfrom dto : UnitDescriptor) :
    List ℚ × Bool :=
  if dfrom = dto then (axis, false)
  else if predominantlyDecreasing (axis.map (convertValue dfrom dto)) then
    ((axis.map (convertValue dfrom dto)).reverse, true)
  else (axis.map (convertValue dfrom dto), false)

/-- Modelled from the spec: a single time series — a time axis, the value
array bound one-to-one with it, and the raw unit label. -/
structure Series where
  time : List ℚ
  value : List ℚ
  time_unit : String
deriving DecidableEq, Repr

/-- Modelled from the spec (sections 4.2 and 6): single-series
conversion.  Both unit labels are resolved; the time axis is converted,
the bound value array is permuted in lockstep when the axis was
reversed, and the reordering flag is returned to the caller.  The result
is a new series carrying the target label. -/
def Series.convert_time_unit (s : Series) (tu : String) :
    Option (Series × Bool) :=
  (resolve s.time_unit).bind fun dfrom =>
    (resolve tu).map fun dto =>
      (⟨(convert s.time dfrom dto).1,
        if (convert s.time dfrom dto).2 then s.value.reverse else s.value,
        tu⟩,
       (convert s.time dfrom dto).2)

/-- Modelled from the spec (section 4.3): convert every member of a list
of series independently to the target label; fails when the target or a
member's current label does not resolve. -/
def convertAll (l : List Series) (tu : String) : Option (List Series) :=
  match l with
  | [] => some []
  | s :: rest =>
      (s.convert_time_unit tu).bind fun p =>
        (convertAll rest tu).map fun rest' => p.1 :: rest'

/-- Modelled from the spec: a collection of independently labeled series. -/
structure MultipleSeries where
  series_list : List Series
deriving DecidableEq, Repr

/-- Modelled from the spec (section 4.3): bulk conversion of a
collection to one target label. -/
def MultipleSeries.convert_time_unit (ms : MultipleSeries)
    (tu : String) : Option MultipleSeries :=
  (convertAll ms.series_list tu).map MultipleSeries.mk

/-- Modelled from the spec (section 4.3): collection construction with an
optional shared target unit; an absent target performs no conversion. -/
def MultipleSeries.make (l : List Series) (tu : Option String) :
    Option MultipleSeries :=
  match tu with
  | none => some ⟨l⟩
  | some u => (convertAll l u).map MultipleSeries.mk

/-- Modelled from the spec: the caller-visible effect of
`new_s = s.convert_time_unit(u)` on a store of series objects — the
store is left untouched and a fresh converted series is produced
(section 3: members are never mutated in place; section 6: the output is
a new sequence under the new label). -/
def convertStep (store : List Series) (i : ℕ) (tu : String) :
    Option (List Series × Series) :=
  match store.get? i with
  | none => none
  | some s =>
    match s.convert_time_unit tu with
    | none => none
    | some r => some (store, r.1)

/-! ### Arithmetic facts about the element-wise transform -/

theorem Direction.sign_mul_self (d : Direction) : d.sign * d.sign = 1 := by
  cases d <;> simp [Direction.sign]

theorem Direction.sign_ne_zero (d : Direction) : d.sign ≠ 0 := by
  cases d <;> simp [Direction.sign]

theorem ten_pow_ne_zero (n : ℕ) : (10 : ℚ) ^ n ≠ 0 :=
  pow_ne_zero n (by norm_num)

/-- Converting a value from a descriptor to itself is the identity. -/
theorem convertValue_self (d : UnitDescriptor) (v : ℚ) :
    convertValue d d v = v := by
  rcases d with ⟨e, dir, off⟩
  have hp := ten_pow_ne_zero e
  cases dir <;>
    · simp only [convertValue, fromAbsoluteYear, toAbsoluteYear,
        Direction.sign]
      field_simp

/-- Converting to a target descriptor and back recovers the value. -/
theorem convertValue_roundtrip (d1 d2 : UnitDescriptor) (v : ℚ) :
    convertValue d2 d1 (convertValue d1 d2 v) = v := by
  rcases d1 with ⟨e1, dir1, off1⟩
  rcases d2 with ⟨e2, dir2, off2⟩
  have hp1 := ten_pow_ne_zero e1
  have hp2 := ten_pow_ne_zero e2
  cases dir1 <;> cases dir2 <;>
    · simp only [convertValue, fromAbsoluteYear, toAbsoluteYear,
        Direction.sign]
      field_simp

/-- Slope of the element-wise transform, viewed as an affine map. -/
def convSlope (d1 d2 : UnitDescriptor) : ℚ :=
  d1.direction.sign * d2.direction.sign * 10 ^ d1.scale_exponent
    / 10 ^ d2.scale_exponent

/-- Intercept of the element-wise transform, viewed as an affine map. -/
def convIntercept (d1 d2 : UnitDescriptor) : ℚ :=
  d2.direction.sign * (d1.datum_offset - d2.datum_offset)
    / 10 ^ d2.scale_exponent

/-- The element-wise transform is affine. -/
theorem convertValue_affine (d1 d2 : UnitDescriptor) (v : ℚ) :
    convertValue d1 d2 v = convSlope d1 d2 * v + convIntercept d1 d2 := by
  unfold convertValue fromAbsoluteYear toAbsoluteYear convSlope convIntercept
  ring

theorem convSlope_ne_zero (d1 d2 : UnitDescriptor) : convSlope d1 d2 ≠ 0 :=
  div_ne_zero
    (mul_ne_zero
      (mul_ne_zero d1.direction.sign_ne_zero d2.direction.sign_ne_zero)
      (ten_pow_ne_zero d1.scale_exponent))
    (ten_pow_ne_zero d2.scale_exponent)

/-! ### Monotonicity facts about the converter -/

theorem firstDiff_sum_cons (a : ℚ) (l : List ℚ) :
    (firstDiff (a :: l)).sum = l.getLastD a - a := by
  induction l generalizing a with
  | nil => simp [firstDiff]
  | cons b t ih =>
      simp only [firstDiff, List.sum_cons, ih b, List.getLastD_cons]
      ring

theorem chain_le_head_getLastD (a : ℚ) (l : List ℚ)
    (h : List.Chain' (· ≤ ·) (a :: l)) : a ≤ l.getLastD a := by
  induction l generalizing a with
  | nil => exact le_refl a
  | cons b t ih =>
      rw [List.chain'_cons] at h
      rw [List.getLastD_cons]
      exact le_trans h.1 (ih b h.2)

theorem chain_ge_head_getLastD (a : ℚ) (l : List ℚ)
    (h : List.Chain' (· ≥ ·) (a :: l)) : l.getLastD a ≤ a := by
  induction l generalizing a with
  | nil => exact le_refl a
  | cons b t ih =>
      rw [List.chain'_cons] at h
      rw [List.getLastD_cons]
      exact le_trans (ih b h.2) h.1

theorem chain_ge_last_eq_chain_le (a : ℚ) (l : List ℚ)
    (h : List.Chain' (· ≥ ·) (a :: l)) (he : l.getLastD a = a) :
    List.Chain' (· ≤ ·) (a :: l) := by
  induction l generalizing a with
  | nil => exact List.chain'_singleton a
  | cons b t ih =>
      rw [List.chain'_cons] at h
      rw [List.getLastD_cons] at he
      have hba : t.getLastD b ≤ b := chain_ge_head_getLastD b t h.2
      have hab : a = b := le_antisymm (he ▸ hba) h.1
      rw [List.chain'_cons]
      exact ⟨le_of_eq hab, ih b h.2 (by rw [he, hab])⟩

theorem chain_le_map_affine_nonneg (m c : ℚ) (hm : 0 ≤ m) (l : List ℚ)
    (h : List.Chain' (· ≤ ·) l) :
    List.Chain' (· ≤ ·) (l.map (fun v => m * v + c)) := by
  rw [List.chain'_map]
  exact h.imp (fun a b hab => by
    exact add_le_add_right (mul_le_mul_of_nonneg_left hab hm) c)

theorem chain_ge_map_affine_nonpos (m c : ℚ) (hm : m ≤ 0) (l : List ℚ)
    (h : List.Chain' (· ≤ ·) l) :
    List.Chain' (· ≥ ·) (l.map (fun v => m * v + c)) := by
  rw [List.chain'_map]
  exact h.imp (fun a b hab => by
    exact add_le_add_right (mul_le_mul_of_nonpos_left hab hm) c)

theorem chain_ge_reverse_chain_le (l : List ℚ)
    (h : List.Chain' (· ≥ ·) l) :
    List.Chain' (· ≤ ·) l.reverse := by
  rw [List.chain'_reverse]
  exact h.imp (fun a b hab => hab)

/-- A predominantly-decreasing check failing on a reverse-sorted list
forces the list to be constant, hence still sorted. -/
theorem chain_ge_not_pd_chain_le (l : List ℚ)
    (hge : List.Chain' (· ≥ ·) l) (hnp : ¬ predominantlyDecreasing l) :
    List.Chain' (· ≤ ·) l := by
  cases l with
  | nil => exact List.chain'_nil
  | cons a t =>
      unfold predominantlyDecreasing at hnp
      rw [firstDiff_sum_cons, not_lt, sub_nonneg] at hnp
      exact chain_ge_last_eq_chain_le a t hge
        (le_antisymm (chain_ge_head_getLastD a t hge) hnp)

/-- Core monotonicity lemma: a conversion applied to a non-decreasing
axis returns a non-decreasing axis. -/
theorem convert_chain_le (axis : List ℚ) (d1 d2 : UnitDescriptor)
    (h : List.Chain' (· ≤ ·) axis) :
    List.Chain' (· ≤ ·) (convert axis d1 d2).1 := by
  unfold convert
  by_cases hd : d1 = d2
  · rw [if_pos hd]
    exact h
  · rw [if_neg hd]
    have hfun : convertValue d1 d2 =
        fun v => convSlope d1 d2 * v + convIntercept d1 d2 :=
      funext (convertValue_affine d1 d2)
    rcases lt_or_gt_of_ne (convSlope_ne_zero d1 d2) with hneg | hpos
    · have hge : List.Chain' (· ≥ ·) (axis.map (convertValue d1 d2)) := by
        rw [hfun]
        exact chain_ge_map_affine_nonpos _ _ (le_of_lt hneg) axis h
      by_cases hp : predominantlyDecreasing (axis.map (convertValue d1 d2))
      · rw [if_pos hp]
        exact chain_ge_reverse_chain_le _ hge
      · rw [if_neg hp]
        exact chain_ge_not_pd_chain_le _ hge hp
    · have hle : List.Chain' (· ≤ ·) (axis.map (convertValue d1 d2)) := by
        rw [hfun]
        exact chain_le_map_affine_nonneg _ _ (le_of_lt hpos) axis h
      have hnp : ¬ predominantlyDecreasing (axis.map (convertValue d1 d2)) := by
        cases hmap : axis.map (convertValue d1 d2) with
        | nil => simp [predominantlyDecreasing, firstDiff]
        | cons a t =>
            unfold predominantlyDecreasing
            rw [firstDiff_sum_cons, not_lt, sub_nonneg]
            exact chain_le_head_getLastD a t (hmap ▸ hle)
      rw [if_neg hnp]
      exact hle

/-! ### Claim theorems -/

/-- C1: for every input axis and every pair of resolved descriptors, the
converter maps each element `value` to
`direction_to * ((datum_offset_from + direction_from * value *
10^scale_exponent_from) - datum_offset_to) / 10^scale_exponent_to`
(PROGRADE contributing sign +1 and RETROGRADE sign -1): the returned
axis is exactly the element-wise image of the input under this linear
transform, up to the reported reversal. -/
theorem convert_applies_linear_formula (axis : List ℚ)
    (d1 d2 : UnitDescriptor) :
    (convert axis d1 d2).1 =
      if (convert axis d1 d2).2 then
        (axis.map (fun v => d2.direction.sign *
          ((d1.datum_offset + d1.direction.sign * v * 10 ^ d1.scale_exponent)
            - d2.datum_offset) / 10 ^ d2.scale_exponent)).reverse
      else
        axis.map (fun v => d2.direction.sign *
          ((d1.datum_offset + d1.direction.sign * v * 10 ^ d1.scale_exponent)
            - d2.datum_offset) / 10 ^ d2.scale_exponent) := by
  have hfun : (fun v : ℚ => d2.direction.sign *
      ((d1.datum_offset + d1.direction.sign * v * 10 ^ d1.scale_exponent)
        - d2.datum_offset) / 10 ^ d2.scale_exponent) =
      convertValue d1 d2 := rfl
  rw [hfun]
  by_cases hd : d1 = d2
  · subst hd
    have hid : convertValue d1 d1 = id := funext (convertValue_self d1)
    simp [convert, hid]
  · by_cases hp : predominantlyDecreasing (axis.map (convertValue d1 d2))
    · simp [convert, hd, hp]
    · simp [convert, hd, hp]

/-- C4 counterexample: the claim quantifies over axes of any initial
ordering, but a descending two-point axis converted between equal
descriptors is returned unchanged, hence not non-decreasing. -/
theorem convert_unsorted_axis_not_ascending :
    ¬ List.Chain' (· ≤ ·)
      ((convert [(1 : ℚ), 0] yearDescriptor yearDescriptor).1) := by
  have h : convert [(1 : ℚ), 0] yearDescriptor yearDescriptor
      = ([1, 0], false) := by decide
  rw [h]
  norm_num [List.chain'_cons, List.chain'_singleton]

/-- C4 (amended): for every numerically non-decreasing input axis and
every pair of descriptors, the axis returned by a single conversion is
numerically non-decreasing. -/
theorem convert_preserves_ascending (axis : List ℚ)
    (d1 d2 : UnitDescriptor) (h : List.Chain' (· ≤ ·) axis) :
    List.Chain' (· ≤ ·) (convert axis d1 d2).1 :=
  convert_chain_le axis d1 d2 h

/-- Witness for the amended C4 at the notebook's leading axis points. -/
theorem convert_preserves_ascending_witness :
    List.Chain' (· ≤ ·) [(1871 : ℚ), 187108/100] ∧
    List.Chain' (· ≤ ·)
      ((convert [(1871 : ℚ), 187108/100] yearDescriptor yrBPDescriptor).1) :=
  ⟨by norm_num [List.chain'_cons, List.chain'_singleton],
   convert_preserves_ascending _ yearDescriptor yrBPDescriptor
    (by norm_num [List.chain'_cons, List.chain'_singleton])⟩

/-- C3 counterexample: the converter enforces numeric ascending order,
not ascending absolute astronomical time — a `year`-labeled ascending
axis converted to `yr BP` is reordered (flag true) into a numerically
ascending axis whose absolute astronomical years are strictly
decreasing. -/
theorem converted_axis_descends_in_absolute_time :
    (convert [(1871 : ℚ), 187108/100] yearDescriptor yrBPDescriptor).2
      = true ∧
    ¬ List.Chain' (· ≤ ·)
      (((convert [(1871 : ℚ), 187108/100] yearDescriptor
        yrBPDescriptor).1).map (toAbsoluteYear yrBPDescriptor)) := by
  have h : convert [(1871 : ℚ), 187108/100] yearDescriptor yrBPDescriptor
      = ([7892/100, 79], true) := by
    norm_num [convert, convertValue, fromAbsoluteYear, toAbsoluteYear,
      yearDescriptor, yrBPDescriptor, Direction.sign,
      predominantlyDecreasing, firstDiff]
  rw [h]
  refine ⟨rfl, ?_⟩
  norm_num [toAbsoluteYear, yrBPDescriptor, Direction.sign,
    List.chain'_cons, List.chain'_singleton]

/-- C3 (amended): after a conversion applied to a numerically
non-decreasing series, the returned time axis is numerically
non-decreasing; when the transform would leave it non-ascending, the
axis and the bound value array are reversed in lockstep and the caller
is notified through the returned reordering flag. -/
theorem series_convert_ascending_lockstep (s : Series) (tu : String)
    (s' : Series) (r : Bool) (hmono : List.Chain' (· ≤ ·) s.time)
    (h : s.convert_time_unit tu = some (s', r)) :
    List.Chain' (· ≤ ·) s'.time ∧
    s'.value = (if r then s.value.reverse else s.value) ∧
    s'.time_unit = tu := by
  unfold Series.convert_time_unit at h
  cases hf : resolve s.time_unit with
  | none => rw [hf] at h; cases h
  | some dfrom =>
      cases ht : resolve tu with
      | none => rw [hf, ht] at h; cases h
      | some dto =>
          rw [hf, ht] at h
          simp only [Option.some_bind, Option.map_some'] at h
          rw [Option.some.injEq, Prod.mk.injEq] at h
          obtain ⟨hs, hr⟩ := h
          subst hs
          subst hr
          exact ⟨convert_chain_le s.time dfrom dto hmono, rfl, rfl⟩

/-- Witness for the amended C3: converting a two-point `year` series to
`yr BP` reverses axis and values in lockstep and reports it. -/
theorem series_convert_ascending_lockstep_witness :
    List.Chain' (· ≤ ·)
      (Series.time ⟨[(1871 : ℚ), 187108/100], [10, 20], "year"⟩) ∧
    Series.convert_time_unit ⟨[(1871 : ℚ), 187108/100], [10, 20], "year"⟩
        "yr BP" =
      some (⟨[(7892 : ℚ)/100, 79], [20, 10], "yr BP"⟩, true) ∧
    (List.Chain' (· ≤ ·)
      (Series.time ⟨[(7892 : ℚ)/100, 79], [20, 10], "yr BP"⟩) ∧
    Series.value ⟨[(7892 : ℚ)/100, 79], [20, 10], "yr BP"⟩ =
      (if true then
        (Series.value ⟨[(1871 : ℚ), 187108/100], [10, 20], "year"⟩).reverse
      else Series.value ⟨[(1871 : ℚ), 187108/100], [10, 20], "year"⟩) ∧
    Series.time_unit ⟨[(7892 : ℚ)/100, 79], [20, 10], "yr BP"⟩ = "yr BP") := by
  have hmono : List.Chain' (· ≤ ·)
      (Series.time ⟨[(1871 : ℚ), 187108/100], [10, 20], "year"⟩) := by
    norm_num [List.chain'_cons, List.chain'_singleton]
  have h1 : resolve
      (Series.time_unit ⟨[(1871 : ℚ), 187108/100], [10, 20], "year"⟩) =
      some yearDescriptor := by decide
  have h2 : resolve "yr BP" = some yrBPDescriptor := by decide
  have hc : convert [(1871 : ℚ), 187108/100] yearDescriptor yrBPDescriptor
      = ([7892/100, 79], true) := by
    norm_num [convert, convertValue, fromAbsoluteYear, toAbsoluteYear,
      yearDescriptor, yrBPDescriptor, Direction.sign,
      predominantlyDecreasing, firstDiff]
  have hconv : Series.convert_time_unit
      ⟨[(1871 : ℚ), 187108/100], [10, 20], "year"⟩ "yr BP" =
      some (⟨[(7892 : ℚ)/100, 79], [20, 10], "yr BP"⟩, true) := by
    unfold Series.convert_time_unit
    rw [h1, h2]
    simp only [Option.some_bind, Option.map_some']
    rw [hc]
    norm_num
  exact ⟨hmono, hconv,
    series_convert_ascending_lockstep _ "yr BP" _ true hmono hconv⟩

/-- C6: converting between two labels that resolve to the same
descriptor (in particular two labels of the same family, and a
descriptor against itself in the underlying axis converter) returns the
series unchanged — same time axis, same values — with the reordering
flag false, only the label string being replaced. -/
theorem convert_same_family_unchanged (s : Series) (tu : String)
    (D : UnitDescriptor) (h1 : resolve s.time_unit = some D)
    (h2 : resolve tu = some D) :
    s.convert_time_unit tu = some (⟨s.time, s.value, tu⟩, false) := by
  unfold Series.convert_time_unit
  rw [h1, h2]
  simp [convert]

/-- Witness for C6: a deliberately unsorted axis labeled `year`
converted to the sibling label `years` comes back untouched. -/
theorem convert_same_family_unchanged_witness :
    resolve "year" = some yearDescriptor ∧
    resolve "years" = some yearDescriptor ∧
    Series.convert_time_unit ⟨[(3 : ℚ), 1, 2], [5, 6, 7], "year"⟩ "years" =
      some (⟨[(3 : ℚ), 1, 2], [5, 6, 7], "years"⟩, false) :=
  ⟨by decide, by decide,
    convert_same_family_unchanged ⟨[(3 : ℚ), 1, 2], [5, 6, 7], "year"⟩
      "years" yearDescriptor (by decide) (by decide)⟩

/-- C8: constructing a collection with an absent target unit returns
every member unchanged — same axes, same values, same labels — with no
conversion attempted. -/
theorem make_without_target_returns_unchanged (l : List Series) :
    MultipleSeries.make l none = some ⟨l⟩ := rfl

/-- C2: the notebook scenario — the ascending `year` axis with endpoints
`1871.0, 1871.08, …, 2003.83, 2003.92` converted to `yr BP` yields
`[-53.92, …, 79.0]`: the reverse (now ascending) of the element-wise
image of the source, with the reordered flag true; converted to `ky BP`
it yields `[-0.05392, …, 0.079]` (scale exponent 3 applied after the
1950 datum shift), likewise reversed. -/
theorem convert_scenario_year_to_bp :
    resolve "year" = some yearDescriptor ∧
    resolve "yr BP" = some yrBPDescriptor ∧
    resolve "ky BP" = some kyBPDescriptor ∧
    convert [(1871 : ℚ), 187108/100, 187117/100, 200375/100, 200383/100,
        200392/100] yearDescriptor yrBPDescriptor =
      ([-5392/100, -5383/100, -5375/100, 7883/100, 7892/100, 79], true) ∧
    [(-5392 : ℚ)/100, -5383/100, -5375/100, 7883/100, 7892/100, 79] =
      ([(1871 : ℚ), 187108/100, 187117/100, 200375/100, 200383/100,
        200392/100].map (convertValue yearDescriptor yrBPDescriptor)).reverse ∧
    convert [(1871 : ℚ), 187108/100, 187117/100, 200375/100, 200383/100,
        200392/100] yearDescriptor kyBPDescriptor =
      ([-5392/100000, -5383/100000, -5375/100000, 7883/100000, 7892/100000,
        79/1000], true) := by
  refine ⟨by decide, by decide, by decide, ?_, ?_, ?_⟩ <;>
    norm_num [convert, convertValue, fromAbsoluteYear, toAbsoluteYear,
      yearDescriptor, yrBPDescriptor, kyBPDescriptor, Direction.sign,
      predominantlyDecreasing, firstDiff]

/-- C5: round-trip — converting an axis from descriptor `d1` to `d2` and
back recovers the original values exactly (real arithmetic is exact),
and the two reordering flags compose (xor) to predict precisely whether
the returned axis is in the original index order or reversed. -/
theorem convert_roundtrip_recovers (A : List ℚ) (d1 d2 : UnitDescriptor) :
    (convert (convert A d1 d2).1 d2 d1).1 =
      if (convert A d1 d2).2 ≠ (convert (convert A d1 d2).1 d2 d1).2
      then A.reverse else A := by
  by_cases hd : d1 = d2
  · subst hd
    simp [convert]
  · have hd' : d2 ≠ d1 := Ne.symm hd
    have hgf : convertValue d2 d1 ∘ convertValue d1 d2 = id :=
      funext (convertValue_roundtrip d1 d2)
    have hback : ∀ l : List ℚ,
        (l.map (convertValue d1 d2)).map (convertValue d2 d1) = l := by
      intro l
      rw [List.map_map, hgf, List.map_id]
    by_cases hp1 : predominantlyDecreasing (A.map (convertValue d1 d2))
    · have h1 : convert A d1 d2 = ((A.map (convertValue d1 d2)).reverse,
          true) := by
        unfold convert
        rw [if_neg hd, if_pos hp1]
      have hmap2 : ((A.map (convertValue d1 d2)).reverse).map
          (convertValue d2 d1) = A.reverse := by
        rw [List.map_reverse, hback]
      rw [h1]
      dsimp only
      by_cases hp2 : predominantlyDecreasing
          (((A.map (convertValue d1 d2)).reverse).map (convertValue d2 d1))
      · have h2 : convert ((A.map (convertValue d1 d2)).reverse) d2 d1 =
            ((((A.map (convertValue d1 d2)).reverse).map
              (convertValue d2 d1)).reverse, true) := by
          unfold convert
          rw [if_neg hd', if_pos hp2]
        rw [h2]
        dsimp only
        rw [hmap2, List.reverse_reverse]
        simp
      · have h2 : convert ((A.map (convertValue d1 d2)).reverse) d2 d1 =
            (((A.map (convertValue d1 d2)).reverse).map (convertValue d2 d1),
              false) := by
          unfold convert
          rw [if_neg hd', if_neg hp2]
        rw [h2]
        dsimp only
        rw [hmap2]
        simp
    · have h1 : convert A d1 d2 = (A.map (convertValue d1 d2), false) := by
        unfold convert
        rw [if_neg hd, if_neg hp1]
      rw [h1]
      dsimp only
      by_cases hp2 : predominantlyDecreasing
          ((A.map (convertValue d1 d2)).map (convertValue d2 d1))
      · have h2 : convert (A.map (convertValue d1 d2)) d2 d1 =
            (((A.map (convertValue d1 d2)).map (convertValue d2 d1)).reverse,
              true) := by
          unfold convert
          rw [if_neg hd', if_pos hp2]
        rw [h2]
        dsimp only
        rw [hback A]
        simp
      · have h2 : convert (A.map (convertValue d1 d2)) d2 d1 =
            ((A.map (convertValue d1 d2)).map (convertValue d2 d1), false) := by
          unfold convert
          rw [if_neg hd', if_neg hp2]
        rw [h2]
        dsimp only
        rw [hback A]
        simp

/-- A lookup over an association list with no matching key returns
nothing. -/
theorem lookup_none_of_no_key {β : Type} (k : String) :
    ∀ (l : List (String × β)), (∀ p ∈ l, p.1 ≠ k) → l.lookup k = none
  | [], _ => rfl
  | (a, b) :: t, h => by
      have ha : (k == a) = false :=
        beq_eq_false_iff_ne.mpr
          (fun hk => h (a, b) (List.mem_cons_self _ _) hk.symm)
      have ht := lookup_none_of_no_key k t
        (fun q hq => h q (List.mem_cons_of_mem _ hq))
      simp [List.lookup, ha, ht]

/-- C7: a label whose normalized form matches none of the recognized
table entries fails to resolve — `resolve` returns `none`, the embedding
of raising `UnrecognizedUnitError` on the offending label — and never
silently yields a partial or default descriptor. -/
theorem resolve_unrecognized_fails (label : String)
    (h : ∀ p ∈ unitTable, p.1 ≠ normalizeLabel label) :
    resolve label = none :=
  lookup_none_of_no_key (normalizeLabel label) unitTable h

/-- Witness for C7 at the unrecognized label "fortnights". -/
theorem resolve_unrecognized_fails_witness :
    (∀ p ∈ unitTable, p.1 ≠ normalizeLabel "fortnights") ∧
    resolve "fortnights" = none :=
  ⟨by decide, resolve_unrecognized_fails "fortnights" (by decide)⟩

/-- A converted series always carries the target label. -/
theorem series_convert_label (s : Series) (tu : String)
    (p : Series × Bool) (h : s.convert_time_unit tu = some p) :
    p.1.time_unit = tu := by
  unfold Series.convert_time_unit at h
  cases hf : resolve s.time_unit with
  | none => rw [hf] at h; simp at h
  | some dfrom =>
      cases ht : resolve tu with
      | none => rw [hf, ht] at h; simp at h
      | some dto =>
          rw [hf, ht] at h
          simp only [Option.some_bind, Option.map_some',
            Option.some.injEq] at h
          rw [← h]

/-- Converting a list of members succeeds pointwise: the output list is
in one-to-one correspondence with the input, each output member arising
from its own input member alone (with its own reordering flag) and
carrying the target label. -/
theorem convertAll_pointwise (tu : String) :
    ∀ (l l' : List Series), convertAll l tu = some l' →
      List.Forall₂ (fun s t => ∃ r, s.convert_time_unit tu = some (t, r) ∧
        t.time_unit = tu) l l'
  | [], l', h => by
      simp only [convertAll, Option.some.injEq] at h
      rw [← h]
      exact List.Forall₂.nil
  | s :: rest, l', h => by
      simp only [convertAll] at h
      cases hs : s.convert_time_unit tu with
      | none => rw [hs] at h; simp at h
      | some p =>
          cases hr : convertAll rest tu with
          | none => rw [hs, hr] at h; simp at h
          | some rest' =>
              rw [hs, hr] at h
              simp only [Option.some_bind, Option.map_some',
                Option.some.injEq] at h
              rw [← h]
              exact List.Forall₂.cons
                ⟨p.2, by rw [hs], series_convert_label s tu p hs⟩
                (convertAll_pointwise tu rest rest' hr)

/-- C9: whenever a collection conversion to a target label succeeds, the
output members correspond one-to-one with the input members; every
output member is produced from its own input member alone against the
single target label (independent conversion, independent reordering),
and every output member carries the identical target label string —
hence the identical resolved target descriptor. -/
theorem collection_convert_pointwise (ms : MultipleSeries) (tu : String)
    (ms' : MultipleSeries) (h : ms.convert_time_unit tu = some ms') :
    List.Forall₂ (fun s t =>
      (∃ r, s.convert_time_unit tu = some (t, r)) ∧
      t.time_unit = tu ∧ resolve t.time_unit = resolve tu)
      ms.series_list ms'.series_list := by
  unfold MultipleSeries.convert_time_unit at h
  cases hc : convertAll ms.series_list tu with
  | none => rw [hc] at h; simp at h
  | some l' =>
      rw [hc] at h
      simp only [Option.map_some', Option.some.injEq] at h
      rw [← h]
      exact (convertAll_pointwise tu ms.series_list l' hc).imp
        (fun s t hst => by
          obtain ⟨r, h1, h2⟩ := hst
          exact ⟨⟨r, h1⟩, h2, by rw [h2]⟩)

/-- Witness for C9: a two-member collection with units `years` and `ka`
converted to `years` — the member already in the target family is
returned value-for-value unchanged while its sibling is converted and
reversed independently, and both members end up carrying the identical
target label. -/
theorem collection_convert_pointwise_witness :
    MultipleSeries.convert_time_unit
        ⟨[⟨[1, 2], [10, 20], "years"⟩, ⟨[1, 2], [5, 6], "ka"⟩]⟩ "years" =
      some ⟨[⟨[1, 2], [10, 20], "years"⟩, ⟨[-50, 950], [6, 5], "years"⟩]⟩ ∧
    List.Forall₂ (fun s t =>
      (∃ r, Series.convert_time_unit s "years" = some (t, r)) ∧
      t.time_unit = "years" ∧ resolve t.time_unit = resolve "years")
      [⟨[1, 2], [10, 20], "years"⟩, ⟨[1, 2], [5, 6], "ka"⟩]
      [⟨[1, 2], [10, 20], "years"⟩, ⟨[-50, 950], [6, 5], "years"⟩] := by
  have r1 : resolve
      (Series.time_unit ⟨[(1 : ℚ), 2], [10, 20], "years"⟩) =
      some yearDescriptor := by decide
  have r2 : resolve
      (Series.time_unit ⟨[(1 : ℚ), 2], [5, 6], "ka"⟩) =
      some kyBPDescriptor := by decide
  have c1 : convert [(1 : ℚ), 2] yearDescriptor yearDescriptor =
      ([1, 2], false) := by decide
  have c2 : convert [(1 : ℚ), 2] kyBPDescriptor yearDescriptor =
      ([-50, 950], true) := by
    norm_num [convert, convertValue, fromAbsoluteYear, toAbsoluteYear,
      yearDescriptor, kyBPDescriptor, Direction.sign,
      predominantlyDecreasing, firstDiff]
  have hs1 : Series.convert_time_unit ⟨[(1 : ℚ), 2], [10, 20], "years"⟩
      "years" = some (⟨[(1 : ℚ), 2], [10, 20], "years"⟩, false) := by
    unfold Series.convert_time_unit
    rw [r1]
    simp only [Option.some_bind, Option.map_some']
    rw [c1]
    norm_num
  have hs2 : Series.convert_time_unit ⟨[(1 : ℚ), 2], [5, 6], "ka"⟩
      "years" = some (⟨[(-50 : ℚ), 950], [6, 5], "years"⟩, true) := by
    unfold Series.convert_time_unit
    rw [r2]
    rw [show resolve "years" = some yearDescriptor from by decide]
    simp only [Option.some_bind, Option.map_some']
    rw [c2]
    norm_num
  have h : MultipleSeries.convert_time_unit
      ⟨[⟨[1, 2], [10, 20], "years"⟩, ⟨[1, 2], [5, 6], "ka"⟩]⟩ "years" =
      some ⟨[⟨[1, 2], [10, 20], "years"⟩,
        ⟨[-50, 950], [6, 5], "years"⟩]⟩ := by
    unfold MultipleSeries.convert_time_unit
    simp only [convertAll, hs1, hs2, Option.some_bind, Option.map_some']
  exact ⟨h, collection_convert_pointwise _ "years" _ h⟩

/-- C10: a single-series conversion does not mutate the caller's series:
running `convert_time_unit` against one member of a store of series
produces a fresh converted series while the store — in particular the
original series — is returned unchanged. -/
theorem convertStep_store_unchanged (store : List Series) (i : ℕ)
    (tu : String) (store' : List Series) (s' : Series)
    (h : convertStep store i tu = some (store', s')) :
    store' = store ∧
    ∃ s r, store.get? i = some s ∧
      s.convert_time_unit tu = some (s', r) := by
  unfold convertStep at h
  cases hg : store.get? i with
  | none => rw [hg] at h; simp at h
  | some s =>
      rw [hg] at h
      simp only at h
      cases hc : s.convert_time_unit tu with
      | none => rw [hc] at h; simp at h
      | some p =>
          rw [hc] at h
          simp only [Option.some.injEq, Prod.mk.injEq] at h
          obtain ⟨h1, h2⟩ := h
          exact ⟨h1.symm, s, p.2, rfl, by rw [hc, ← h2]⟩

/-- Witness for C10: a one-element store whose series is converted from
`year` to `yr BP` is returned with the original untouched beside the
fresh converted series. -/
theorem convertStep_store_unchanged_witness :
    convertStep [⟨[1, 2], [10, 20], "year"⟩] 0 "yr BP" =
      some ([⟨[1, 2], [10, 20], "year"⟩],
        ⟨[1948, 1949], [20, 10], "yr BP"⟩) ∧
    ([⟨[1, 2], [10, 20], "year"⟩] = [(⟨[1, 2], [10, 20], "year"⟩ : Series)] ∧
     ∃ s r, [(⟨[1, 2], [10, 20], "year"⟩ : Series)].get? 0 = some s ∧
       s.convert_time_unit "yr BP" =
         some (⟨[1948, 1949], [20, 10], "yr BP"⟩, r)) := by
  have r1 : resolve
      (Series.time_unit ⟨[(1 : ℚ), 2], [10, 20], "year"⟩) =
      some yearDescriptor := by decide
  have r2 : resolve "yr BP" = some yrBPDescriptor := by decide
  have hc : convert [(1 : ℚ), 2] yearDescriptor yrBPDescriptor =
      ([1948, 1949], true) := by
    norm_num [convert, convertValue, fromAbsoluteYear, toAbsoluteYear,
      yearDescriptor, yrBPDescriptor, Direction.sign,
      predominantlyDecreasing, firstDiff]
  have hs : Series.convert_time_unit ⟨[(1 : ℚ), 2], [10, 20], "year"⟩
      "yr BP" = some (⟨[(1948 : ℚ), 1949], [20, 10], "yr BP"⟩, true) := by
    unfold Series.convert_time_unit
    rw [r1, r2]
    simp only [Option.some_bind, Option.map_some']
    rw [hc]
    norm_num
  have h : convertStep [⟨[1, 2], [10, 20], "year"⟩] 0 "yr BP" =
      some ([⟨[1, 2], [10, 20], "year"⟩],
        ⟨[1948, 1949], [20, 10], "yr BP"⟩) := by
    unfold convertStep
    simp only [List.get?_cons_zero, hs]
  exact ⟨h, convertStep_store_unchanged _ 0 "yr BP" _ _ h⟩
